import Mathlib

/-
  Verification development for the ucdp hardware-module elaboration engine.

  Pure functions of the repository are translated into Lean definitions;
  stateful code becomes explicit state passing; fallible code returns
  Except.  Components whose implementation files are not part of the
  source snapshot (the namespace, identifier-iteration, assignment,
  expression and module-lifecycle modules) are modelled from the
  specification text and anchored against the exact behaviour pinned by
  the repository test-suite, which is part of the snapshot.
-/

namespace Ucdp

/-! ## util.py: split and namefilter -/

/-- Translation of `split` from src/ucdp/util.py: an empty string yields
the empty tuple, otherwise the string is split at each separator and
every item is stripped of surrounding whitespace. -/
def split (items : String) : List String :=
  if items = "" then [] else (items.splitOn ";").map String.trim

/-- Translation of `namefilter` from src/ucdp/util.py.  The source splits
the names argument and then returns a predicate that ignores its input
and returns True; the pattern-matching branch is commented out in the
source file. -/
def namefilter (names : String) : String → Bool :=
  let _names := split names
  fun _item => true

/-! ## Canonicalization cache (types/base.py and ident.py are not in the
source snapshot). -/

/-- Modelled from the spec: construction key of a type — class name plus
construction arguments plus the dynamic flag ("structurally-identical
non-dynamic types are canonicalized to the same object; dynamic types
are exempt and always distinct"). -/
structure TypeKey where
  clsname : String
  args : List Int
  dynamic : Bool
deriving DecidableEq

/-- Modelled from the spec: the process-scoped canonicalization table
mapping construction keys to object identities, with a fresh-identity
counter. -/
structure Cache where
  entries : List (TypeKey × Nat)
  next : Nat

/-- Lookup of a construction key in the canonicalization table. -/
def Cache.lookup (c : Cache) (k : TypeKey) : Option Nat :=
  (c.entries.find? (fun e => e.1 = k)).map (·.2)

/-- Modelled from the spec: type construction.  A dynamic key always
receives a fresh object identity; a non-dynamic key is first looked up
in the table and only interned when absent. -/
def construct (c : Cache) (k : TypeKey) : Nat × Cache :=
  if k.dynamic then (c.next, ⟨c.entries, c.next + 1⟩)
  else
    match c.lookup k with
    | some i => (i, c)
    | none => (c.next, ⟨c.entries ++ [(k, c.next)], c.next + 1⟩)

/-- Well-formedness of a canonicalization table: every interned identity
is below the freshness counter and identities determine their key. -/
def Cache.WF (c : Cache) : Prop :=
  (∀ k i, c.lookup k = some i → i < c.next) ∧
  (∀ k k' i, c.lookup k = some i → c.lookup k' = some i → k = k')

/-- Modelled from the spec: identifier construction key — the identity of
the (already canonicalized) type object together with the name; the key
is dynamic exactly when the underlying type is. -/
def mkIdentKey (typeId : Nat) (name : String) (dyn : Bool) : TypeKey :=
  ⟨"Ident:" ++ name, [Int.ofNat typeId], dyn⟩

/-! ## Structural type system and identifier iteration.
The implementation files types/struct.py, types/iter.py and ident.py are
not in the source snapshot; the model below follows the spec (§3, §4.1,
§4.2) and is anchored against the iteration results pinned by
src/tests/test_identiter.py. -/

/-- Modelled from the spec: member orientation tag (types/orientation.py
is not in the snapshot): forward, backward or bidirectional. -/
inductive Orient where
  | fwd
  | bwd
  | bidir
deriving DecidableEq

/-- Orientation flip, applied when a member is reached through a
backward-tagged member. -/
def Orient.flip : Orient → Orient
  | .fwd => .bwd
  | .bwd => .fwd
  | .bidir => .bidir

/-- Modelled from the spec: composition of the accumulated orientation
with a member's tag — a backward parent flips the member's subtree, a
bidirectional member stays bidirectional. -/
def Orient.comp : Orient → Orient → Orient
  | .fwd, c => c
  | .bwd, c => c.flip
  | .bidir, _ => .bidir

mutual

/-- Modelled from the spec: hardware value shape — scalar leaf (bit
vectors and enumerations, with their width), structure with ordered
oriented members, or fixed-length array. -/
inductive UType where
  | scalar (typename : String) (width : Nat)
  | strukt (typename : String) (members : UMembers)
  | array (elem : UType) (len : Nat)

/-- Ordered member list of a structure type: name, orientation tag and
member type. -/
inductive UMembers where
  | nil
  | cons (name : String) (orient : Orient) (ty : UType) (rest : UMembers)

end

mutual

def UType.beq : UType → UType → Bool
  | .scalar n w, .scalar n' w' => n = n' && w = w'
  | .strukt n ms, .strukt n' ms' => n = n' && UMembers.beq ms ms'
  | .array e l, .array e' l' => UType.beq e e' && l = l'
  | _, _ => false

def UMembers.beq : UMembers → UMembers → Bool
  | .nil, .nil => true
  | .cons n o t r, .cons n' o' t' r' =>
      n = n' && o = o' && UType.beq t t' && UMembers.beq r r'
  | _, _ => false

end

instance : BEq UType := ⟨UType.beq⟩

mutual

/-- Count of all recursively flattened members of a type: a scalar leaf
has none, an array has those of its element, a structure has one per
member plus all of the member's own flattened members. -/
def UType.flatCount : UType → Nat
  | .scalar _ _ => 0
  | .strukt _ ms => UMembers.flatCountM ms
  | .array e _ => UType.flatCount e

/-- Flattened-member count of a member list. -/
def UMembers.flatCountM : UMembers → Nat
  | .nil => 0
  | .cons _ _ t rest => 1 + UType.flatCount t + UMembers.flatCountM rest

end

/-- One entry yielded by identifier iteration: the joined name, the
hierarchy level, the effective orientation, the accumulated
dimension-slice stack (one `(left, right)` slice per traversed array
dimension) and the entry's type. -/
structure Entry where
  name : String
  level : Nat
  dir : Orient
  dims : List (Nat × Nat)
  ty : UType
deriving BEq

mutual

/-- Pre-order identifier iteration (ident.py is not in the snapshot;
modelled from the spec §4.2 and anchored on test_identiter.py): emit the
identifier itself, then recurse into composite members in declaration
order; arrays push a `0:len-1` slice on the accumulated dimension stack
and recurse into the element type; member names join onto the running
name and the identifier's suffix is re-appended to every entry. -/
def iterGo (sfx : String) (acc : String) (lvl : Nat) (dir : Orient)
    (dims : List (Nat × Nat)) : UType → List Entry
  | .array e n => iterGo sfx acc lvl dir (dims ++ [(0, n - 1)]) e
  | .scalar tn w => [⟨acc ++ sfx, lvl, dir, dims, .scalar tn w⟩]
  | .strukt tn ms =>
      ⟨acc ++ sfx, lvl, dir, dims, .strukt tn ms⟩ ::
        iterGoM sfx acc lvl dir dims ms

/-- Iteration over a structure's member list, extending the joined name,
incrementing the level and composing the orientation per member. -/
def iterGoM (sfx : String) (acc : String) (lvl : Nat) (dir : Orient)
    (dims : List (Nat × Nat)) : UMembers → List Entry
  | .nil => []
  | .cons mn mo mt rest =>
      iterGo sfx (acc ++ "_" ++ mn) (lvl + 1) (dir.comp mo) dims mt ++
        iterGoM sfx acc lvl dir dims rest

end

/-- Modelled from the spec: an identifier — basename, name suffix,
direction/orientation and type (ident.py is not in the snapshot). -/
structure Ident where
  basename : String
  sfx : String
  dir : Orient
  ty : UType

/-- Full name of an identifier: basename followed by its suffix. -/
def Ident.name (x : Ident) : String := x.basename ++ x.sfx

/-- `iter()` of an identifier: deterministic pre-order expansion into
itself followed by all recursively flattened members. -/
def Ident.iter (x : Ident) : List Entry :=
  iterGo x.sfx x.basename 0 x.dir [] x.ty

/-! ### Fixtures from src/tests/test_identiter.py -/

/-- The scalar bit type used by the test fixtures. -/
def bitT : UType := .scalar "BitType" 1

/-- The 16-bit unsigned vector type used by the test fixtures. -/
def uint16T : UType := .scalar "UintType(16)" 16

/-- `AType` of test_identiter.py: req (fwd), data (array of 5 uint16),
ack (bwd), error (bidir). -/
def aTypeT : UType :=
  .strukt "AType"
    (.cons "req" .fwd bitT
      (.cons "data" .fwd (.array uint16T 5)
        (.cons "ack" .bwd bitT
          (.cons "error" .bidir bitT .nil))))

/-- `MType` of test_identiter.py: an enumeration over a 2-bit key type,
a leaf for iteration purposes. -/
def mTypeT : UType := .scalar "MType" 2

/-- `BType` of test_identiter.py: foo (AType, fwd), mode (MType, fwd),
bar (array of 3 AType, bwd). -/
def bTypeT : UType :=
  .strukt "BType"
    (.cons "foo" .fwd aTypeT
      (.cons "mode" .fwd mTypeT
        (.cons "bar" .bwd (.array aTypeT 3) .nil)))

/-- The signal `Signal(BType(), "name_s")` of test_iter. -/
def bIdent : Ident := ⟨"name", "_s", .fwd, bTypeT⟩

/-- The twelve entries pinned by test_iter for `Signal(BType(),
"name_s").iter()`: names, levels, directions and dimension stacks. -/
def bIdentExpected : List Entry :=
  [⟨"name_s", 0, .fwd, [], bTypeT⟩,
   ⟨"name_foo_s", 1, .fwd, [], aTypeT⟩,
   ⟨"name_foo_req_s", 2, .fwd, [], bitT⟩,
   ⟨"name_foo_data_s", 2, .fwd, [(0, 4)], uint16T⟩,
   ⟨"name_foo_ack_s", 2, .bwd, [], bitT⟩,
   ⟨"name_foo_error_s", 2, .bidir, [], bitT⟩,
   ⟨"name_mode_s", 1, .fwd, [], mTypeT⟩,
   ⟨"name_bar_s", 1, .bwd, [(0, 2)], aTypeT⟩,
   ⟨"name_bar_req_s", 2, .bwd, [(0, 2)], bitT⟩,
   ⟨"name_bar_data_s", 2, .bwd, [(0, 2), (0, 4)], uint16T⟩,
   ⟨"name_bar_ack_s", 2, .fwd, [(0, 2)], bitT⟩,
   ⟨"name_bar_error_s", 2, .bidir, [(0, 2)], bitT⟩]

/-! ## Driver/assignment engine (assigns.py is not in the source
snapshot; modelled from the spec §4.4 and anchored on
src/tests/test_assigns.py). -/

/-- A recorded explicit driver: target leaf name, driven bit range
(inclusive bounds) and driving source expression. -/
structure Driver where
  target : String
  lo : Nat
  hi : Nat
  source : String
deriving DecidableEq

/-- Two drivers conflict when they drive the same target leaf and their
bit ranges intersect. -/
def Driver.overlaps (a b : Driver) : Bool :=
  a.target = b.target && max a.lo b.lo ≤ min a.hi b.hi

/-- Modelled from the spec: the multiple-driver conflict error names the
target and both drivers — the already recorded one and the new one. -/
structure ConflictErr where
  target : String
  existing : String
  fresh : String
deriving DecidableEq

/-- Per-module driver ledger: explicitly recorded drivers in insertion
order, and default (fallback) drivers. -/
structure AssignsState where
  ledger : List Driver
  defaults : List Driver
deriving DecidableEq

/-- Modelled from the spec: `set` on one leaf bit-range — an overlapping
already recorded explicit driver raises the conflict error naming both
drivers, otherwise the driver is recorded. -/
def AssignsState.setLeaf (st : AssignsState) (d : Driver) :
    Except ConflictErr AssignsState :=
  match st.ledger.find? (fun e => e.overlaps d) with
  | some e => .error ⟨d.target, e.source, d.source⟩
  | none => .ok ⟨st.ledger ++ [d], st.defaults⟩

/-- `set` over a list of leaf bit-ranges (the expansion of a composite
target), failing at the first conflicting leaf. -/
def AssignsState.setMany (st : AssignsState) :
    List Driver → Except ConflictErr AssignsState
  | [] => .ok st
  | d :: rest =>
      match st.setLeaf d with
      | .error e => .error e
      | .ok st' => st'.setMany rest

/-- Width of a scalar leaf type. -/
def scalarWidth : UType → Nat
  | .scalar _ w => w
  | _ => 0

/-- An iteration entry is a leaf when its type is scalar. -/
def Entry.isLeaf (e : Entry) : Bool :=
  match e.ty with
  | .scalar _ _ => true
  | _ => false

/-- Modelled from the spec: expansion of a composite target into its leaf
bit-ranges, paired leaf-by-leaf with the source identifier's leaves; each
leaf is driven over its full width. -/
def expandPair (tgt src : Ident) : List Driver :=
  List.zipWith
    (fun (t s : Entry) => ⟨t.name, 0, scalarWidth t.ty - 1, s.name⟩)
    (tgt.iter.filter Entry.isLeaf) (src.iter.filter Entry.isLeaf)

/-- Modelled from the spec: `set(target, source)` for composite
identifiers — expand both into leaves and record one driver per leaf
bit-range, checking the ledger for each. -/
def AssignsState.set (st : AssignsState) (tgt src : Ident) :
    Except ConflictErr AssignsState :=
  st.setMany (expandPair tgt src)

/-- Modelled from the spec: `set_default` records a fallback driver;
recording a second default for the same target without the explicit
override flag errors. -/
def AssignsState.setDefault (st : AssignsState) (d : Driver)
    (overwrite : Bool) : Except String AssignsState :=
  if !overwrite && st.defaults.any (fun e => e.target = d.target) then
    .error ("default for " ++ d.target ++ " already set")
  else .ok ⟨st.ledger, st.defaults ++ [d]⟩

/-! ## Namespace and module lock lifecycle.  Namespace.lock/add are
modelled from the spec (namespace.py is not in the snapshot, behaviour
anchored on src/tests/test_ident.py); the BaseMod operations are
translated from src/ucdp/mod/base.py. -/

/-- Error taxonomy of namespace/module mutation: lock errors, duplicate
errors and assertion failures. -/
inductive ModErr where
  | lockError (msg : String)
  | dupError (msg : String)
  | assertError (msg : String)
deriving DecidableEq

/-- Modelled from the spec: an ordered, name-keyed namespace with an
open/locked state. -/
structure NamespaceS where
  items : List (String × String)
  locked : Bool
deriving DecidableEq

/-- Modelled from the spec: `Namespace.add` raises a lock error once the
namespace is locked (test_ident pins the message as the representation
of the offending item) and a duplicate error on a name collision. -/
def NamespaceS.add (ns : NamespaceS) (name rep : String) :
    Except ModErr NamespaceS :=
  if ns.locked then .error (.lockError rep)
  else if ns.items.any (fun e => e.1 = name) then
    .error (.dupError (rep ++ " already exists"))
  else .ok ⟨ns.items ++ [(name, rep)], ns.locked⟩

/-- Modelled from the spec: `Namespace.lock()` — the terminal transition
to the locked state. -/
def NamespaceS.lock (ns : NamespaceS) : NamespaceS := ⟨ns.items, true⟩

/-- State of a `BaseMod` (src/ucdp/mod/base.py): the `_locked` flag, the
namespaces, and the recorded flip-flops, muxes and assignments. -/
structure ModState where
  locked : Bool
  names : NamespaceS
  params : NamespaceS
  ports : NamespaceS
  portssignals : NamespaceS
  insts : NamespaceS
  muxes : List String
  flipflops : List String
  assignments : List (String × String)
deriving DecidableEq

/-- `BaseMod.is_locked` (src/ucdp/mod/base.py line 879). -/
def ModState.isLocked (st : ModState) : Bool := st.locked

/-- `BaseMod.lock` (src/ucdp/mod/base.py lines 888-900): asserts the
module is not already locked, locks every namespace attribute and sets
`_locked`. -/
def ModState.lock (st : ModState) : Except ModErr ModState :=
  if st.locked then .error (.assertError "is already locked")
  else
    .ok { st with
          locked := true,
          names := st.names.lock,
          params := st.params.lock,
          ports := st.ports.lock,
          portssignals := st.portssignals.lock,
          insts := st.insts.lock }

/-- The lock-error message template shared by the add operations of
src/ucdp/mod/base.py. -/
def lockMsg (what name : String) : String :=
  "Cannot add " ++ what ++ " " ++ name ++
    ". Module built was already completed and is froozen."

/-- `BaseMod.add_param` (src/ucdp/mod/base.py lines 454-499): raises a
lock error when the module is locked, otherwise adds the parameter to
the module namespace and the parameter namespace. -/
def ModState.addParam (st : ModState) (name rep : String) :
    Except ModErr ModState :=
  if st.locked then .error (.lockError (lockMsg "param" name))
  else
    match st.names.add name rep with
    | .error e => .error e
    | .ok ns =>
        match st.params.add name rep with
        | .error e => .error e
        | .ok ps => .ok { st with names := ns, params := ps }

/-- `BaseMod.add_const` (src/ucdp/mod/base.py lines 501-539). -/
def ModState.addConst (st : ModState) (name rep : String) :
    Except ModErr ModState :=
  if st.locked then .error (.lockError (lockMsg "constant" name))
  else
    match st.names.add name rep with
    | .error e => .error e
    | .ok ns => .ok { st with names := ns }

/-- `BaseMod.add_port` (src/ucdp/mod/base.py lines 558-594). -/
def ModState.addPort (st : ModState) (name rep : String) :
    Except ModErr ModState :=
  if st.locked then .error (.lockError (lockMsg "port" name))
  else
    match st.names.add name rep with
    | .error e => .error e
    | .ok ns =>
        match st.portssignals.add name rep with
        | .error e => .error e
        | .ok pss =>
            match st.ports.add name rep with
            | .error e => .error e
            | .ok ps =>
                .ok { st with names := ns, portssignals := pss, ports := ps }

/-- `BaseMod.add_signal` (src/ucdp/mod/base.py lines 596-631). -/
def ModState.addSignal (st : ModState) (name rep : String) :
    Except ModErr ModState :=
  if st.locked then .error (.lockError (lockMsg "port" name))
  else
    match st.names.add name rep with
    | .error e => .error e
    | .ok ns =>
        match st.portssignals.add name rep with
        | .error e => .error e
        | .ok pss => .ok { st with names := ns, portssignals := pss }

/-- `BaseMod.add_flipflop` (src/ucdp/mod/base.py lines 773-818): checks
the lock first, then adds the output signal and its next-value signal. -/
def ModState.addFlipflop (st : ModState) (name rep : String) :
    Except ModErr ModState :=
  if st.locked then .error (.lockError (lockMsg "flipflop" name))
  else
    match st.addSignal name rep with
    | .error e => .error e
    | .ok st1 =>
        match st1.addSignal (name ++ "_nxt_s") rep with
        | .error e => .error e
        | .ok st2 => .ok { st2 with flipflops := st2.flipflops ++ [name] }

/-- `BaseMod.add_mux` (src/ucdp/mod/base.py lines 837-861). -/
def ModState.addMux (st : ModState) (name : String) :
    Except ModErr ModState :=
  if st.locked then .error (.lockError (lockMsg "mux" name))
  else .ok { st with muxes := st.muxes ++ [name] }

/-- `BaseMod.assign` (src/ucdp/mod/base.py lines 673-703): raises a lock
error when the module is locked, otherwise records the assignment. -/
def ModState.assign (st : ModState) (target source : String) :
    Except ModErr ModState :=
  if st.locked then
    .error (.lockError
      ("Cannot add assign " ++ source ++ " to " ++ target ++
        ". Module built was already completed and is froozen."))
  else .ok { st with assignments := st.assignments ++ [(target, source)] }

/-- The mutating operations of a module covered by the lock guarantee. -/
inductive MutOp where
  | addParam (name rep : String)
  | addConst (name rep : String)
  | addPort (name rep : String)
  | addSignal (name rep : String)
  | addFlipflop (name rep : String)
  | addMux (name : String)
  | assign (target source : String)
deriving DecidableEq

/-- Dispatch of a mutating operation to its translation. -/
def ModState.apply (st : ModState) : MutOp → Except ModErr ModState
  | .addParam n r => st.addParam n r
  | .addConst n r => st.addConst n r
  | .addPort n r => st.addPort n r
  | .addSignal n r => st.addSignal n r
  | .addFlipflop n r => st.addFlipflop n r
  | .addMux n => st.addMux n
  | .assign t s => st.assign t s

/-! ## Failed-lookup diagnostics (nameutil.py and the lookup machinery of
ident.py are not in the snapshot; modelled from the spec §4.2 and the
message pinned by src/tests/test_ident.py). -/

/-- Fuelled Levenshtein edit distance over character lists; the fuel is
always at least the summed lengths, so the fallback row is unreachable. -/
def levF : Nat → List Char → List Char → Nat
  | 0, as, bs => as.length + bs.length
  | _ + 1, [], bs => bs.length
  | _ + 1, a :: as, [] => (a :: as).length
  | f + 1, a :: as, b :: bs =>
      if a = b then levF f as bs
      else 1 + min (levF f as bs) (min (levF f (a :: as) bs) (levF f as (b :: bs)))

/-- Levenshtein edit distance between two strings. -/
def lev (a b : String) : Nat :=
  levF (a.length + b.length) a.toList b.toList

/-- Display name of a type, used in the expandable leaf listing. -/
def UType.typeName : UType → String
  | .scalar n _ => n
  | .strukt n _ => n
  | .array e _ => e.typeName

/-- Modelled from the spec: a namespace of identifiers (`Idents`). -/
structure IdentsS where
  idents : List Ident

/-- All names reachable in the namespace: every identifier expanded into
its full pre-order listing. -/
def IdentsS.entries (ns : IdentsS) : List Entry :=
  ns.idents.flatMap Ident.iter

/-- The full expandable leaf listing: each reachable name paired with the
display name of its type. -/
def IdentsS.listing (ns : IdentsS) : List (String × String) :=
  ns.entries.map (fun e => (e.name, e.ty.typeName))

/-- Insertion of a candidate into a distance-ranked list. -/
def insertRanked (key : String → Nat) (x : String) :
    List String → List String
  | [] => [x]
  | y :: ys => if key x ≤ key y then x :: y :: ys else y :: insertRanked key x ys

/-- Ranking of a candidate list by a numeric key, stably. -/
def rankBy (key : String → Nat) : List String → List String
  | [] => []
  | x :: xs => insertRanked key x (rankBy key xs)

/-- Modelled from the spec: nearest-match suggestions for a failed
lookup — reachable names whose edit distance to the requested name is at
most half the longer length, ranked by edit distance. -/
def IdentsS.suggestions (ns : IdentsS) (name : String) : List String :=
  rankBy (lev name)
    ((ns.entries.map Entry.name).filter
      (fun c => 2 * lev name c ≤ max name.length c.length))

/-- Modelled from the spec: the name-not-found error carries the
requested name, the full expandable leaf listing with types, and the
ranked nearest-match suggestions. -/
structure LookupErr where
  name : String
  listing : List (String × String)
  suggest : List String
deriving DecidableEq

/-- Modelled from the spec: namespace lookup — any reachable (possibly
nested) name resolves to its entry; a failed lookup raises the
diagnostic error. -/
def IdentsS.get (ns : IdentsS) (name : String) : Except LookupErr Entry :=
  match ns.entries.find? (fun e => e.name = name) with
  | some e => .ok e
  | none => .error ⟨name, ns.listing, ns.suggestions name⟩

/-! ## Expression constant folding (expr.py is not in the snapshot;
modelled from the spec §4.3 and anchored on the integer values pinned by
src/tests/test_expr.py). -/

/-- Fuelled floor base-2 logarithm; the fuel is always at least the
argument, so the fallback row is unreachable. -/
def natLog2F : Nat → Nat → Nat
  | 0, _ => 0
  | f + 1, n => if n ≤ 1 then 0 else 1 + natLog2F f (n / 2)

/-- Floor base-2 logarithm. -/
def natLog2 (n : Nat) : Nat := natLog2F n n

/-- Python bitwise NOT on unbounded integers. -/
def intNot (a : Int) : Int := -a - 1

/-- Python bitwise AND on unbounded two's-complement integers. -/
def intAnd (a b : Int) : Int :=
  if 0 ≤ a then
    if 0 ≤ b then Int.ofNat (Nat.land a.toNat b.toNat)
    else Int.ofNat (a.toNat - Nat.land a.toNat (intNot b).toNat)
  else
    if 0 ≤ b then Int.ofNat (b.toNat - Nat.land b.toNat (intNot a).toNat)
    else intNot (Int.ofNat (Nat.lor (intNot a).toNat (intNot b).toNat))

/-- Python bitwise OR on unbounded two's-complement integers. -/
def intOr (a b : Int) : Int :=
  if 0 ≤ a then
    if 0 ≤ b then Int.ofNat (Nat.lor a.toNat b.toNat)
    else intNot (Int.ofNat ((intNot b).toNat - Nat.land (intNot b).toNat a.toNat))
  else
    if 0 ≤ b then intNot (Int.ofNat ((intNot a).toNat - Nat.land (intNot a).toNat b.toNat))
    else intNot (Int.ofNat (Nat.land (intNot a).toNat (intNot b).toNat))

/-- Python bitwise XOR on unbounded two's-complement integers. -/
def intXor (a b : Int) : Int :=
  if 0 ≤ a then
    if 0 ≤ b then Int.ofNat (Nat.xor a.toNat b.toNat)
    else intNot (Int.ofNat (Nat.xor a.toNat (intNot b).toNat))
  else
    if 0 ≤ b then intNot (Int.ofNat (Nat.xor (intNot a).toNat b.toNat))
    else Int.ofNat (Nat.xor (intNot a).toNat (intNot b).toNat)

/-- Binary operator family of the expression language. -/
inductive BinOp where
  | add | sub | mul | fdiv | fmod | pow
  | lt | le | gt | ge | eq | ne
  | shl | shr | band | bor | bxor
deriving DecidableEq

/-- Unary operator family producing a signed result. -/
inductive UnOp where
  | inv | neg | abs
deriving DecidableEq

/-- A binary operator is a comparison (its result type is the boolean
type). -/
def BinOp.isCmp : BinOp → Bool
  | .lt | .le | .gt | .ge | .eq | .ne => true
  | _ => false

/-- Folding of one binary operation over operand values with the
host-language (Python) integer semantics: floor division and modulus,
unbounded power and shifts, two's-complement bitwise operations,
comparisons yielding 0 or 1. -/
def BinOp.fold : BinOp → Int → Int → Int
  | .add, a, b => a + b
  | .sub, a, b => a - b
  | .mul, a, b => a * b
  | .fdiv, a, b => Int.fdiv a b
  | .fmod, a, b => Int.fmod a b
  | .pow, a, b => a ^ b.toNat
  | .lt, a, b => if a < b then 1 else 0
  | .le, a, b => if a ≤ b then 1 else 0
  | .gt, a, b => if b < a then 1 else 0
  | .ge, a, b => if b ≤ a then 1 else 0
  | .eq, a, b => if a = b then 1 else 0
  | .ne, a, b => if a = b then 0 else 1
  | .shl, a, b => a * 2 ^ b.toNat
  | .shr, a, b => Int.fdiv a (2 ^ b.toNat)
  | .band, a, b => intAnd a b
  | .bor, a, b => intOr a b
  | .bxor, a, b => intXor a b

/-- Folding of one unary operation with Python integer semantics. -/
def UnOp.fold : UnOp → Int → Int
  | .inv, a => intNot a
  | .neg, a => -a
  | .abs, a => if a < 0 then -a else a

/-- A scalar result type of the expression language: display name,
width, signedness and elaboration-time default. -/
structure ScalarTy where
  typename : String
  width : Nat
  signed : Bool
  dflt : Int
deriving DecidableEq

/-- The boolean result type of comparisons. -/
def boolTy : ScalarTy := ⟨"BoolType", 1, false, 0⟩

/-- Expression nodes: constants and identifier references carrying their
type, operator applications, ternary, and the named builtins. -/
inductive Expr where
  | constE (ty : ScalarTy)
  | identE (ty : ScalarTy)
  | bin (op : BinOp) (a b : Expr)
  | un (op : UnOp) (a : Expr)
  | ternary (c t e : Expr)
  | minF (a b : Expr)
  | maxF (a b : Expr)
  | log2F (a : Expr)
deriving DecidableEq

/-- Declared result type of an expression: comparisons are boolean, a
binary or unary operation keeps the left operand's type, a ternary takes
the true-expression's type, builtins keep the first operand's type. -/
def Expr.ty : Expr → ScalarTy
  | .constE t => t
  | .identE t => t
  | .bin op a _ => if op.isCmp then boolTy else a.ty
  | .un _ a => a.ty
  | .ternary _ t _ => t.ty
  | .minF a _ => a.ty
  | .maxF a _ => a.ty
  | .log2F a => a.ty

/-- The elaboration-time integer value of an expression: constant
folding of the operation over the operands' defaults/constants with
plain host-language integer semantics. -/
def Expr.int : Expr → Int
  | .constE t => t.dflt
  | .identE t => t.dflt
  | .bin op a b => op.fold a.int b.int
  | .un op a => op.fold a.int
  | .ternary c t e => if c.int ≠ 0 then t.int else e.int
  | .minF a b => min a.int b.int
  | .maxF a b => max a.int b.int
  | .log2F a => Int.ofNat (natLog2 a.int.toNat)

/-- A second reading of the spec sentence, for refutation: the folded
value reduced to the two's-complement width truncation of the declared
result type — an unsigned result reduced into `0 ≤ v < 2^width`. -/
def Expr.intTrunc (e : Expr) : Int :=
  if e.ty.signed then Int.bmod e.int (2 ^ e.ty.width)
  else Int.emod e.int (2 ^ e.ty.width)

/-- The constant `16'd10` of test_const_const. -/
def c16d10 : Expr := .constE ⟨"UintType(16)", 16, false, 10⟩

/-- The constant `16'd5` of test_const_const. -/
def c16d5 : Expr := .constE ⟨"UintType(16)", 16, false, 5⟩

/-! ## Module build lifecycle (mod/mods.py is not in the snapshot;
modelled from the spec §4.6 and anchored on the hook traces pinned by
src/tests/test_modbuild.py).  A plain module (AMod, AImportedMod,
AConfigurableMod) runs build, post and lock inside its constructor.  A
tailored module (ATailoredMod) has a dependency phase: driven from a
non-deferred context it runs its whole cluster; created inside another
tailored module's hook it only runs its build phase and registers with
the driving ancestor, which later runs the dependency pass in creation
order (pre-order) and the post/lock pass in post-order — this is the
nested expansion pinned by test_hier1/test_hier2. -/

/-- Module capability kind: plain (build and post hooks only) or
tailored (additional dependency phase). -/
inductive MKind where
  | plain
  | tailored
deriving DecidableEq

mutual

/-- Static description of a module: name, kind, children instantiated by
its build hook and children instantiated by its dependency hook (unused
for plain modules, which have no dependency hook). -/
inductive ModSpec where
  | mk (name : String) (kind : MKind) (bs : SpecList) (ds : SpecList)

/-- Ordered list of child module descriptions. -/
inductive SpecList where
  | nil
  | cons (m : ModSpec) (rest : SpecList)

end

/-- Instance name of a module description. -/
def ModSpec.name : ModSpec → String
  | .mk n _ _ _ => n

/-- Lifecycle events observed during elaboration: the build, dependency
and post hooks, the lock transition and the constructor return, each
with the instance path. -/
inductive Ev where
  | build (p : List String)
  | dep (p : List String)
  | post (p : List String)
  | lock (p : List String)
  | ret (p : List String)
deriving DecidableEq

/-- The instance path of a lifecycle event. -/
def Ev.path : Ev → List String
  | .build p => p
  | .dep p => p
  | .post p => p
  | .lock p => p
  | .ret p => p

mutual

/-- Elaboration of a plain module: run the build hook (instantiating the
children inline), then the post hook, lock, and return from the
constructor. -/
def elabPlain (p : List String) : ModSpec → List Ev
  | .mk n _ bs _ =>
      .build (p ++ [n]) ::
        (elabInline (p ++ [n]) bs ++
          [.post (p ++ [n]), .lock (p ++ [n]), .ret (p ++ [n])])

/-- Inline elaboration of children from a non-deferred context: a plain
child runs its full constructor; a tailored child is driven through its
whole cluster (build phase, dependency pass, post pass) before its
constructor returns. -/
def elabInline (p : List String) : SpecList → List Ev
  | .nil => []
  | .cons c rest =>
      (match c with
       | .mk n .plain bs ds => elabPlain p (.mk n .plain bs ds)
       | .mk n .tailored bs ds =>
           bphase p (.mk n .tailored bs ds) ++
             (dphase p (.mk n .tailored bs ds) ++
               (pphase p (.mk n .tailored bs ds) ++ [.ret (p ++ [n])]))) ++
        elabInline p rest

/-- Build phase of a module inside a tailored cluster: run the build
hook; plain children elaborate fully inline, tailored children only run
their build phase and return, registering for the deferred passes. -/
def bphase (p : List String) : ModSpec → List Ev
  | .mk n _ bs _ => .build (p ++ [n]) :: bchildren (p ++ [n]) bs

/-- Child elaboration during a cluster build or dependency hook. -/
def bchildren (p : List String) : SpecList → List Ev
  | .nil => []
  | .cons c rest =>
      (match c with
       | .mk n .plain bs ds => elabPlain p (.mk n .plain bs ds)
       | .mk n .tailored bs ds =>
           bphase p (.mk n .tailored bs ds) ++ [.ret (p ++ [n])]) ++
        bchildren p rest

/-- Dependency pass over a cluster, in creation order (pre-order): run
the module's dependency hook (elaborating the dependency children's
build phases), then recurse into the tailored children created by the
build hook and then into those created by the dependency hook. -/
def dphase (p : List String) : ModSpec → List Ev
  | .mk n _ bs ds =>
      .dep (p ++ [n]) ::
        (bchildren (p ++ [n]) ds ++
          (dchildren (p ++ [n]) bs ++ dchildren (p ++ [n]) ds))

/-- Dependency-pass recursion into the tailored children of a list. -/
def dchildren (p : List String) : SpecList → List Ev
  | .nil => []
  | .cons c rest =>
      (match c with
       | .mk _ .plain _ _ => []
       | .mk n .tailored bs ds => dphase p (.mk n .tailored bs ds)) ++
        dchildren p rest

/-- Post pass over a cluster, in post-order: the tailored children
created by the build hook, then those created by the dependency hook,
then the module's own post hook and lock. -/
def pphase (p : List String) : ModSpec → List Ev
  | .mk n _ bs ds =>
      pchildren (p ++ [n]) bs ++
        (pchildren (p ++ [n]) ds ++ [.post (p ++ [n]), .lock (p ++ [n])])

/-- Post-pass recursion into the tailored children of a list. -/
def pchildren (p : List String) : SpecList → List Ev
  | .nil => []
  | .cons c rest =>
      (match c with
       | .mk _ .plain _ _ => []
       | .mk n .tailored bs ds => pphase p (.mk n .tailored bs ds)) ++
        pchildren p rest

end

/-- Driving a tailored cluster from a non-deferred context: build phase,
dependency pass, post pass, constructor return. -/
def clusterEvs (p : List String) (m : ModSpec) : List Ev :=
  bphase p m ++ (dphase p m ++ (pphase p m ++ [.ret (p ++ [m.name])]))

/-- Construction of a top-level module: a plain top runs its plain
constructor, a tailored top drives its own cluster. -/
def buildTop (m : ModSpec) : List Ev :=
  match m with
  | .mk _ .plain _ _ => elabPlain [] m
  | .mk _ .tailored _ _ => clusterEvs [] m

mutual

/-- Paths of all modules created during elaboration of a module
(dependency children only exist for tailored modules). -/
def modPaths (p : List String) : ModSpec → List (List String)
  | .mk n k bs ds =>
      (p ++ [n]) ::
        (modPathsL (p ++ [n]) bs ++
          (match k with
           | .plain => []
           | .tailored => modPathsL (p ++ [n]) ds))

/-- Paths of all modules created by a list of children. -/
def modPathsL (p : List String) : SpecList → List (List String)
  | .nil => []
  | .cons c rest => modPaths p c ++ modPathsL p rest

end

/-- Projection of a lifecycle trace to its hook events (build,
dependency, post), which is what the test-suite tracker records. -/
def hookEvs (evs : List Ev) : List Ev :=
  evs.filter (fun e =>
    match e with
    | .build _ => true
    | .dep _ => true
    | .post _ => true
    | .lock _ => false
    | .ret _ => false)

/-- A childless plain leaf module description. -/
def leafSpec (n : String) : ModSpec := .mk n .plain .nil .nil

/-- Helper turning a plain list into a `SpecList`. -/
def specListOf : List ModSpec → SpecList
  | [] => .nil
  | m :: rest => .cons m (specListOf rest)

/-- `MyTailored0Mod` of test_modbuild.py: build hook instantiates a leaf
and an imported leaf, dependency hook likewise. -/
def tail0Spec (n : String) : ModSpec :=
  .mk n .tailored
    (specListOf [leafSpec "u_leaf0", leafSpec "u_imp0"])
    (specListOf [leafSpec "u_leaf0_dep", leafSpec "u_imp0_dep"])

/-- `MyTailored1Mod` of test_modbuild.py: like `MyTailored0Mod` but each
hook also instantiates a `MyTailored0Mod` (core modules, which emit no
hook events, are elided). -/
def tail1Spec (n : String) : ModSpec :=
  .mk n .tailored
    (specListOf [leafSpec "u_leaf0", leafSpec "u_imp0", tail0Spec "u_tail0"])
    (specListOf [leafSpec "u_leaf0_dep", leafSpec "u_imp0_dep", tail0Spec "u_tail0_dep"])

/-- `MyTop1Mod` of test_modbuild.py: a plain top whose build hook
instantiates a leaf, an imported leaf, and a `MyTailored1Mod`. -/
def top1Spec : ModSpec :=
  .mk "my_top1" .plain
    (specListOf [leafSpec "u_leaf1", leafSpec "u_imp1", tail1Spec "u_tail1"])
    .nil

/-- The hook-event trace pinned by test_hier1 of
src/tests/test_modbuild.py (the TRACKER assertion), with each entry
reduced to its hook kind and instance path. -/
def hier1Trace : List Ev :=
  [.build ["my_top1"],
   .build ["my_top1", "u_leaf1"],
   .post ["my_top1", "u_leaf1"],
   .build ["my_top1", "u_imp1"],
   .post ["my_top1", "u_imp1"],
   .build ["my_top1", "u_tail1"],
   .build ["my_top1", "u_tail1", "u_leaf0"],
   .post ["my_top1", "u_tail1", "u_leaf0"],
   .build ["my_top1", "u_tail1", "u_imp0"],
   .post ["my_top1", "u_tail1", "u_imp0"],
   .build ["my_top1", "u_tail1", "u_tail0"],
   .build ["my_top1", "u_tail1", "u_tail0", "u_leaf0"],
   .post ["my_top1", "u_tail1", "u_tail0", "u_leaf0"],
   .build ["my_top1", "u_tail1", "u_tail0", "u_imp0"],
   .post ["my_top1", "u_tail1", "u_tail0", "u_imp0"],
   .dep ["my_top1", "u_tail1"],
   .build ["my_top1", "u_tail1", "u_leaf0_dep"],
   .post ["my_top1", "u_tail1", "u_leaf0_dep"],
   .build ["my_top1", "u_tail1", "u_imp0_dep"],
   .post ["my_top1", "u_tail1", "u_imp0_dep"],
   .build ["my_top1", "u_tail1", "u_tail0_dep"],
   .build ["my_top1", "u_tail1", "u_tail0_dep", "u_leaf0"],
   .post ["my_top1", "u_tail1", "u_tail0_dep", "u_leaf0"],
   .build ["my_top1", "u_tail1", "u_tail0_dep", "u_imp0"],
   .post ["my_top1", "u_tail1", "u_tail0_dep", "u_imp0"],
   .dep ["my_top1", "u_tail1", "u_tail0"],
   .build ["my_top1", "u_tail1", "u_tail0", "u_leaf0_dep"],
   .post ["my_top1", "u_tail1", "u_tail0", "u_leaf0_dep"],
   .build ["my_top1", "u_tail1", "u_tail0", "u_imp0_dep"],
   .post ["my_top1", "u_tail1", "u_tail0", "u_imp0_dep"],
   .dep ["my_top1", "u_tail1", "u_tail0_dep"],
   .build ["my_top1", "u_tail1", "u_tail0_dep", "u_leaf0_dep"],
   .post ["my_top1", "u_tail1", "u_tail0_dep", "u_leaf0_dep"],
   .build ["my_top1", "u_tail1", "u_tail0_dep", "u_imp0_dep"],
   .post ["my_top1", "u_tail1", "u_tail0_dep", "u_imp0_dep"],
   .post ["my_top1", "u_tail1", "u_tail0"],
   .post ["my_top1", "u_tail1", "u_tail0_dep"],
   .post ["my_top1", "u_tail1"],
   .post ["my_top1"]]

/-- The namespace of the C9 scenario: two 4-bit idents named foo_a and
foo_b. -/
def fooNs : IdentsS :=
  ⟨[⟨"foo_a", "", .fwd, .scalar "UintType(4)" 4⟩,
    ⟨"foo_b", "", .fwd, .scalar "UintType(4)" 4⟩]⟩

/-- A fresh unlocked module state (all namespaces empty and open). -/
def modState0 : ModState :=
  ⟨false, ⟨[], false⟩, ⟨[], false⟩, ⟨[], false⟩, ⟨[], false⟩, ⟨[], false⟩,
    [], [], []⟩

/-- The module state after locking `modState0`. -/
def modState0L : ModState :=
  ⟨true, ⟨[], true⟩, ⟨[], true⟩, ⟨[], true⟩, ⟨[], true⟩, ⟨[], true⟩,
    [], [], []⟩

/-!
# Theorems
-/

/-! ## Shared lemmas -/

theorem cache_lookup_append (c : Cache) (k k' : TypeKey) (n : Nat)
    (hnone : c.lookup k = none) :
    Cache.lookup ⟨c.entries ++ [(k, n)], c.next + 1⟩ k' =
      if k' = k then some n else c.lookup k' := by
  unfold Cache.lookup at *
  rw [List.find?_append]
  by_cases h : k' = k
  · subst h
    have : c.entries.find? (fun e => e.1 = k') = none := by
      cases hfind : c.entries.find? (fun e => e.1 = k') with
      | none => rfl
      | some e => simp [hfind] at hnone
    simp [this, List.find?]
  · cases hfind : c.entries.find? (fun e => e.1 = k') with
    | none => simp [hfind, List.find?, h, Ne.symm h]
    | some e => simp [hfind, h]

mutual

theorem iterGo_length (sfx acc : String) (lvl : Nat) (dir : Orient)
    (dims : List (Nat × Nat)) (t : UType) :
    (iterGo sfx acc lvl dir dims t).length = 1 + t.flatCount := by
  match t with
  | .scalar tn w => simp [iterGo, UType.flatCount]
  | .array e n =>
      rw [iterGo, UType.flatCount]
      exact iterGo_length sfx acc lvl dir (dims ++ [(0, n - 1)]) e
  | .strukt tn ms =>
      rw [iterGo, UType.flatCount]
      simp only [List.length_cons]
      rw [iterGoM_length]
      omega

theorem iterGoM_length (sfx acc : String) (lvl : Nat) (dir : Orient)
    (dims : List (Nat × Nat)) (ms : UMembers) :
    (iterGoM sfx acc lvl dir dims ms).length = ms.flatCountM := by
  match ms with
  | .nil => simp [iterGoM, UMembers.flatCountM]
  | .cons mn mo mt rest =>
      rw [iterGoM, UMembers.flatCountM]
      simp only [List.length_append]
      rw [iterGo_length, iterGoM_length]

end

/-! ## Claim theorems -/

/-- C6: for every composite-typed identifier, `iter()` yields the
identifier itself followed by all recursively flattened members in
deterministic pre-order, so the yielded count is 1 plus the flattened
member count; leaf names are the joined member paths carrying the
identifier's own suffix, with array indices injected as an accumulated
stack of dimension slices — verified in general for the count and
against the twelve entries pinned by test_identiter.py for the pre-order
names, levels and dimension stacks. -/
theorem c6_iter_preorder_count :
    (∀ x : Ident, x.iter.length = 1 + x.ty.flatCount) ∧
      bIdent.iter = bIdentExpected := by
  constructor
  · intro x
    exact iterGo_length x.sfx x.basename 0 x.dir [] x.ty
  · rfl

/-- C7: orientation flips across backward-tagged members and the flip is
an involution — a backward member nested inside a backward member is
forward again — and array members expand with an accumulated
dimension-slice stack; checked in general for the involution and
composition laws and against the pinned entries of test_identiter.py
(`name_bar_ack_s` is BWD-in-BWD and comes out forward, `name_bar_data_s`
accumulates the slice stack `0:2, 0:4`). -/
theorem c7_orientation_involution :
    (∀ o : Orient, o.flip.flip = o) ∧
      (∀ o : Orient, Orient.comp .bwd o = o.flip) ∧
      (∀ o : Orient, Orient.comp .bwd (Orient.comp .bwd o) = o) ∧
      bIdent.iter.get? 10 =
        some ⟨"name_bar_ack_s", 2, .fwd, [(0, 2)], bitT⟩ ∧
      bIdent.iter.get? 4 = some ⟨"name_foo_ack_s", 2, .bwd, [], bitT⟩ ∧
      bIdent.iter.get? 9 =
        some ⟨"name_bar_data_s", 2, .bwd, [(0, 2), (0, 4)], uint16T⟩ := by
  refine ⟨?_, ?_, ?_, rfl, rfl, rfl⟩ <;> intro o <;> cases o <;> rfl

/-- C10: for every names argument, the predicate returned by
`namefilter` returns true for every item, so any name-based filtering
through it keeps every element. -/
theorem c10_namefilter_true :
    (∀ names item, namefilter names item = true) ∧
      (∀ names (items : List String),
        items.filter (namefilter names) = items) := by
  refine ⟨fun _ _ => rfl, fun names items => ?_⟩
  simp [namefilter]

/-- C5: over any well-formed canonicalization table, constructing a
non-dynamic type twice from the same key yields the identical object;
object identity coincides with structural (key) equality for
non-dynamic constructions; a dynamic key yields distinct objects on
every construction; and identifier keys over equal non-dynamic
attributes are likewise canonicalized to one object. -/
theorem c5_type_singleton (c : Cache) (hwf : c.WF) (k1 k2 kd : TypeKey)
    (h1 : k1.dynamic = false) (h2 : k2.dynamic = false)
    (hd : kd.dynamic = true) :
    (construct ((construct c k1).2) k1).1 = (construct c k1).1 ∧
      ((construct ((construct c k1).2) k2).1 = (construct c k1).1 ↔ k2 = k1) ∧
      (construct ((construct c kd).2) kd).1 ≠ (construct c kd).1 ∧
      (∀ tid nm,
        (construct ((construct c (mkIdentKey tid nm false)).2)
            (mkIdentKey tid nm false)).1 =
          (construct c (mkIdentKey tid nm false)).1) := by
  obtain ⟨hlt, hinj⟩ := hwf
  have key : ∀ ka kb : TypeKey, ka.dynamic = false → kb.dynamic = false →
      ((construct ((construct c ka).2) kb).1 = (construct c ka).1 ↔ kb = ka) := by
    intro ka kb ha hb
    cases hla : c.lookup ka with
    | some i =>
        have hstep : construct c ka = (i, c) := by
          simp [construct, ha, hla]
        rw [hstep]
        cases hlb : c.lookup kb with
        | some j =>
            have : construct c kb = (j, c) := by simp [construct, hb, hlb]
            rw [this]
            constructor
            · intro hij
              have hji : j = i := hij
              exact hinj kb ka i (hji ▸ hlb) hla
            · intro hk
              subst hk
              rw [hla] at hlb
              exact (Option.some.inj hlb).symm
        | none =>
            have : construct c kb = (c.next, ⟨c.entries ++ [(kb, c.next)], c.next + 1⟩) := by
              simp [construct, hb, hlb]
            rw [this]
            constructor
            · intro hij
              exact absurd (hlt ka i hla) (by omega)
            · intro hk
              subst hk
              rw [hla] at hlb
              exact absurd hlb (by simp)

    | none =>
        have hstep : construct c ka =
            (c.next, ⟨c.entries ++ [(ka, c.next)], c.next + 1⟩) := by
          simp [construct, ha, hla]
        rw [hstep]
        have hlkb : Cache.lookup ⟨c.entries ++ [(ka, c.next)], c.next + 1⟩ kb =
            if kb = ka then some c.next else c.lookup kb :=
          cache_lookup_append c ka kb c.next hla
        by_cases hk : kb = ka
        · subst hk
          have : construct ⟨c.entries ++ [(kb, c.next)], c.next + 1⟩ kb =
              (c.next, ⟨c.entries ++ [(kb, c.next)], c.next + 1⟩) := by
            simp [construct, hb, hlkb]
          rw [this]
          simp
        · rw [if_neg hk] at hlkb
          cases hlb : c.lookup kb with
          | some j =>
              have : construct ⟨c.entries ++ [(ka, c.next)], c.next + 1⟩ kb =
                  (j, ⟨c.entries ++ [(ka, c.next)], c.next + 1⟩) := by
                simp [construct, hb, hlkb, hlb]
              rw [this]
              have := hlt kb j hlb
              constructor
              · intro hij; omega
              · intro hkk; exact absurd hkk hk
          | none =>
              have : construct ⟨c.entries ++ [(ka, c.next)], c.next + 1⟩ kb =
                  (c.next + 1, ⟨(c.entries ++ [(ka, c.next)]) ++ [(kb, c.next + 1)],
                    c.next + 1 + 1⟩) := by
                simp [construct, hb, hlkb, hlb]
              rw [this]
              constructor
              · intro hij; omega
              · intro hkk; exact absurd hkk hk
  refine ⟨(key k1 k1 h1 h1).mpr rfl, key k1 k2 h1 h2, ?_, ?_⟩
  · have hstep : construct c kd = (c.next, ⟨c.entries, c.next + 1⟩) := by
      simp [construct, hd]
    rw [hstep]
    have : construct ⟨c.entries, c.next + 1⟩ kd =
        (c.next + 1, ⟨c.entries, c.next + 1 + 1⟩) := by
      simp [construct, hd]
    rw [this]
    omega
  · intro tid nm
    exact (key (mkIdentKey tid nm false) (mkIdentKey tid nm false) rfl rfl).mpr rfl

/-- Witness for C5 at the empty table and the key of `UintType(6)`. -/
theorem c5_type_singleton_witness :
    (construct ((construct ⟨[], 0⟩ ⟨"UintType", [6], false⟩).2)
        ⟨"UintType", [6], false⟩).1 =
      (construct ⟨[], 0⟩ ⟨"UintType", [6], false⟩).1 :=
  (c5_type_singleton ⟨[], 0⟩
    ⟨fun k i h => by simp [Cache.lookup] at h,
      fun k k' i h _ => by simp [Cache.lookup] at h⟩
    ⟨"UintType", [6], false⟩ ⟨"UintType", [6], false⟩
    ⟨"DynamicStructType", [], true⟩ rfl rfl rfl).1

/-- C1: over any ledger with no driver yet recorded on the target, a
second explicit set call whose bit range overlaps an already recorded
explicit driver on the same target raises the conflict error naming both
drivers, while two set calls on disjoint bit ranges of the same target
both succeed and both appear in the resulting ledger, in order. -/
theorem c1_driver_conflict (st : AssignsState) (t : String) (d1 d2 : Driver)
    (ht : ∀ e ∈ st.ledger, e.target ≠ t)
    (h1 : d1.target = t) (h2 : d2.target = t) :
    (max d1.lo d2.lo ≤ min d1.hi d2.hi →
      st.setLeaf d1 = .ok ⟨st.ledger ++ [d1], st.defaults⟩ ∧
        AssignsState.setLeaf ⟨st.ledger ++ [d1], st.defaults⟩ d2 =
          .error ⟨t, d1.source, d2.source⟩) ∧
    (min d1.hi d2.hi < max d1.lo d2.lo →
      st.setLeaf d1 = .ok ⟨st.ledger ++ [d1], st.defaults⟩ ∧
        AssignsState.setLeaf ⟨st.ledger ++ [d1], st.defaults⟩ d2 =
          .ok ⟨st.ledger ++ [d1, d2], st.defaults⟩ ∧
        d1 ∈ st.ledger ++ [d1, d2] ∧ d2 ∈ st.ledger ++ [d1, d2]) := by
  have hfind1 : st.ledger.find? (fun e => e.overlaps d1) = none := by
    rw [List.find?_eq_none]
    intro x hx
    simp [Driver.overlaps, h1, ht x hx]
  have hfind2 : st.ledger.find? (fun e => e.overlaps d2) = none := by
    rw [List.find?_eq_none]
    intro x hx
    simp [Driver.overlaps, h2, ht x hx]
  have hok1 : st.setLeaf d1 = .ok ⟨st.ledger ++ [d1], st.defaults⟩ := by
    simp [AssignsState.setLeaf, hfind1]
  constructor
  · intro hov
    refine ⟨hok1, ?_⟩
    have : Driver.overlaps d1 d2 = true := by
      simp [Driver.overlaps, h1, h2, hov]
    simp [AssignsState.setLeaf, List.find?_append, hfind2, List.find?, this, h2]
  · intro hdis
    have : Driver.overlaps d1 d2 = false := by
      simp [Driver.overlaps, h1, h2]
      omega
    refine ⟨hok1, ?_, by simp, by simp⟩
    simp [AssignsState.setLeaf, List.find?_append, hfind2, List.find?, this]

/-- Witness for C1 at the disjoint slices of test_assign_slice:
vec_b_o bits 3..6 and 9..12, both driven by vec_c_i. -/
theorem c1_driver_conflict_witness :
    AssignsState.setLeaf ⟨[], []⟩ ⟨"vec_b_o", 3, 6, "vec_c_i"⟩ =
        .ok ⟨[⟨"vec_b_o", 3, 6, "vec_c_i"⟩], []⟩ ∧
      AssignsState.setLeaf ⟨[⟨"vec_b_o", 3, 6, "vec_c_i"⟩], []⟩
          ⟨"vec_b_o", 9, 12, "vec_c_i"⟩ =
        .ok ⟨[⟨"vec_b_o", 3, 6, "vec_c_i"⟩, ⟨"vec_b_o", 9, 12, "vec_c_i"⟩], []⟩ ∧
      (⟨"vec_b_o", 3, 6, "vec_c_i"⟩ : Driver) ∈
        [(⟨"vec_b_o", 3, 6, "vec_c_i"⟩ : Driver), ⟨"vec_b_o", 9, 12, "vec_c_i"⟩] ∧
      (⟨"vec_b_o", 9, 12, "vec_c_i"⟩ : Driver) ∈
        [(⟨"vec_b_o", 3, 6, "vec_c_i"⟩ : Driver), ⟨"vec_b_o", 9, 12, "vec_c_i"⟩] :=
  (c1_driver_conflict ⟨[], []⟩ "vec_b_o" ⟨"vec_b_o", 3, 6, "vec_c_i"⟩
    ⟨"vec_b_o", 9, 12, "vec_c_i"⟩ (by simp) rfl rfl).2 (by decide)

theorem ns_add_locked (ns ns' : NamespaceS) (n r : String)
    (h : ns.add n r = .ok ns') : ns'.locked = ns.locked := by
  unfold NamespaceS.add at h
  split at h
  · exact absurd h (by simp)
  · split at h
    · exact absurd h (by simp)
    · cases h
      rfl

theorem addSignal_locked (s s' : ModState) (n r : String)
    (h : s.addSignal n r = .ok s') : s'.locked = s.locked := by
  unfold ModState.addSignal at h
  split at h
  · exact absurd h (by simp)
  · split at h
    · exact absurd h (by simp)
    · split at h
      · exact absurd h (by simp)
      · cases h
        rfl

theorem apply_preserves_locked (op : MutOp) (s1 s2 : ModState)
    (h : s1.apply op = .ok s2) : s2.locked = s1.locked := by
  cases op with
  | addParam n r =>
      change s1.addParam n r = .ok s2 at h
      unfold ModState.addParam at h
      split at h
      · exact absurd h (by simp)
      · split at h
        · exact absurd h (by simp)
        · split at h
          · exact absurd h (by simp)
          · cases h
            rfl
  | addConst n r =>
      change s1.addConst n r = .ok s2 at h
      unfold ModState.addConst at h
      split at h
      · exact absurd h (by simp)
      · split at h
        · exact absurd h (by simp)
        · cases h
          rfl
  | addPort n r =>
      change s1.addPort n r = .ok s2 at h
      unfold ModState.addPort at h
      split at h
      · exact absurd h (by simp)
      · split at h
        · exact absurd h (by simp)
        · split at h
          · exact absurd h (by simp)
          · split at h
            · exact absurd h (by simp)
            · cases h
              rfl
  | addSignal n r => exact addSignal_locked s1 s2 n r h
  | addFlipflop n r =>
      change s1.addFlipflop n r = .ok s2 at h
      unfold ModState.addFlipflop at h
      split at h
      · exact absurd h (by simp)
      · rename_i hnl
        split at h
        · exact absurd h (by simp)
        · rename_i t1 hs1
          split at h
          · exact absurd h (by simp)
          · rename_i t2 hs2
            cases h
            have e2 := addSignal_locked t1 t2 _ r hs2
            have e1 := addSignal_locked s1 t1 n r hs1
            simpa [e2] using e1
  | addMux n =>
      change s1.addMux n = .ok s2 at h
      unfold ModState.addMux at h
      split at h
      · exact absurd h (by simp)
      · cases h
        rfl
  | assign t s =>
      change s1.assign t s = .ok s2 at h
      unfold ModState.assign at h
      split at h
      · exact absurd h (by simp)
      · cases h
        rfl

/-- C2: locking a module makes `is_locked` true and it stays true (no
operation resets it); every subsequent mutation — adding a parameter,
constant, port, signal, flip-flop, mux or assignment — raises a lock
error; likewise a locked namespace refuses additions with a lock error,
and namespace additions never unlock.  Translated from
`BaseMod.lock`/`is_locked` and the add operations of
src/ucdp/mod/base.py; the namespace side is modelled from the spec. -/
theorem c2_lock_terminal (st st' : ModState) (h : st.lock = .ok st')
    (ns : NamespaceS) :
    st'.isLocked = true ∧
      (∀ op : MutOp, ∃ m, st'.apply op = .error (.lockError m)) ∧
      (∀ (op : MutOp) (s1 s2 : ModState),
        s1.apply op = .ok s2 → s2.locked = s1.locked) ∧
      (ns.lock).locked = true ∧
      (∀ n r, ∃ m, (ns.lock).add n r = .error (.lockError m)) ∧
      (∀ n r ns', ns.add n r = .ok ns' → ns'.locked = ns.locked) := by
  have hlocked : st'.locked = true := by
    unfold ModState.lock at h
    split at h
    · exact absurd h (by simp)
    · cases h
      rfl
  refine ⟨hlocked, ?_, fun op s1 s2 hap => apply_preserves_locked op s1 s2 hap,
    rfl, fun n r => ⟨r, by simp [NamespaceS.add, NamespaceS.lock]⟩,
    fun n r ns' hadd => ns_add_locked ns ns' n r hadd⟩
  intro op
  cases op with
  | addParam n r =>
      refine ⟨lockMsg "param" n, ?_⟩
      show st'.addParam n r = _
      simp [ModState.addParam, hlocked]
  | addConst n r =>
      refine ⟨lockMsg "constant" n, ?_⟩
      show st'.addConst n r = _
      simp [ModState.addConst, hlocked]
  | addPort n r =>
      refine ⟨lockMsg "port" n, ?_⟩
      show st'.addPort n r = _
      simp [ModState.addPort, hlocked]
  | addSignal n r =>
      refine ⟨lockMsg "port" n, ?_⟩
      show st'.addSignal n r = _
      simp [ModState.addSignal, hlocked]
  | addFlipflop n r =>
      refine ⟨lockMsg "flipflop" n, ?_⟩
      show st'.addFlipflop n r = _
      simp [ModState.addFlipflop, hlocked]
  | addMux n =>
      refine ⟨lockMsg "mux" n, ?_⟩
      show st'.addMux n = _
      simp [ModState.addMux, hlocked]
  | assign t s =>
      refine ⟨"Cannot add assign " ++ s ++ " to " ++ t ++
        ". Module built was already completed and is froozen.", ?_⟩
      show st'.assign t s = _
      simp [ModState.assign, hlocked]

/-- Witness for C2 at a fresh module state and a one-item namespace. -/
theorem c2_lock_terminal_witness : modState0L.isLocked = true :=
  (c2_lock_terminal modState0 modState0L rfl ⟨[("x", "rx")], false⟩).1

/-- C9: every failed lookup raises the not-known error carrying the full
expandable leaf listing with each name's type and the ranked
nearest-match suggestions by edit distance; in particular looking up the
unknown name foo in a namespace holding foo_a and foo_b yields an error
suggesting both. -/
theorem c9_lookup_suggestions (ns : IdentsS) (name : String)
    (err : LookupErr) (h : ns.get name = .error err) :
    err = ⟨name, ns.listing, ns.suggestions name⟩ ∧
      fooNs.get "foo" =
        .error ⟨"foo", [("foo_a", "UintType(4)"), ("foo_b", "UintType(4)")],
          ["foo_a", "foo_b"]⟩ := by
  refine ⟨?_, by rfl⟩
  unfold IdentsS.get at h
  split at h
  · exact absurd h (by simp)
  · cases h
    rfl

/-- Witness for C9 at the foo/foo_a/foo_b namespace itself. -/
theorem c9_lookup_suggestions_witness :
    (⟨"foo", [("foo_a", "UintType(4)"), ("foo_b", "UintType(4)")],
        ["foo_a", "foo_b"]⟩ : LookupErr) =
      ⟨"foo", fooNs.listing, fooNs.suggestions "foo"⟩ :=
  (c9_lookup_suggestions fooNs "foo"
    ⟨"foo", [("foo_a", "UintType(4)"), ("foo_b", "UintType(4)")],
      ["foo_a", "foo_b"]⟩ (by rfl)).1

/-- C8 counterexample: the claim that the folded value is reduced to the
two's-complement width truncation of the declared result type fails on
the repository's own pinned vectors — `16'd10 ** 16'd5` has declared
result type UintType(16) yet folds to 100000, outside 0..2^16-1, and
`~16'd10` folds to the negative -11; the width-truncated reading
disagrees with the folded value. -/
theorem c8_counterexample :
    (Expr.bin .pow c16d10 c16d5).ty = ⟨"UintType(16)", 16, false, 10⟩ ∧
      (Expr.bin .pow c16d10 c16d5).int = 100000 ∧
      ¬ (Expr.bin .pow c16d10 c16d5).int < 2 ^ 16 ∧
      (Expr.bin .pow c16d10 c16d5).intTrunc ≠ (Expr.bin .pow c16d10 c16d5).int ∧
      (Expr.un .inv c16d10).int = -11 ∧
      ¬ 0 ≤ (Expr.un .inv c16d10).int := by
  refine ⟨rfl, by decide, by decide, by decide, by decide, by decide⟩

/-- C8 (amended): the elaboration-time integer value is the plain
constant folding of the operation over the operands' defaults with
host-language integer semantics — comparisons fold to 0/1 with a boolean
result type, ternary selects by the condition's folded truth value, and
no reduction to the declared result type's width is applied — verified
against every vector pinned by test_const_const, test_ternary,
test_min/test_max and test_log2 of src/tests/test_expr.py. -/
theorem c8_amended_plain_folding :
    (Expr.bin .add c16d10 c16d5).int = 15 ∧
      (Expr.bin .sub c16d10 c16d5).int = 5 ∧
      (Expr.bin .mul c16d10 c16d5).int = 50 ∧
      (Expr.bin .fdiv c16d10 c16d5).int = 2 ∧
      (Expr.bin .fmod c16d10 c16d5).int = 0 ∧
      (Expr.bin .pow c16d10 c16d5).int = 100000 ∧
      (Expr.bin .gt c16d10 c16d5).int = 1 ∧
      (Expr.bin .ge c16d10 c16d5).int = 1 ∧
      (Expr.bin .eq c16d10 c16d5).int = 0 ∧
      (Expr.bin .ne c16d10 c16d5).int = 1 ∧
      (Expr.bin .le c16d10 c16d5).int = 0 ∧
      (Expr.bin .lt c16d10 c16d5).int = 0 ∧
      (Expr.bin .shl c16d10 c16d5).int = 320 ∧
      (Expr.bin .shr c16d10 c16d5).int = 0 ∧
      (Expr.bin .band c16d10 c16d5).int = 0 ∧
      (Expr.bin .bor c16d10 c16d5).int = 15 ∧
      (Expr.bin .bxor c16d10 c16d5).int = 15 ∧
      (Expr.un .inv c16d10).int = -11 ∧
      (Expr.un .neg c16d10).int = -10 ∧
      (Expr.un .abs c16d10).int = 10 ∧
      (Expr.un .abs (Expr.un .neg c16d10)).int = 10 ∧
      (Expr.bin .add c16d10 c16d5).ty = ⟨"UintType(16)", 16, false, 10⟩ ∧
      (Expr.bin .gt c16d10 c16d5).ty = boolTy ∧
      (Expr.ternary (.identE ⟨"BitType", 1, false, 0⟩)
          (.identE ⟨"UintType(16)", 16, false, 10⟩)
          (.identE ⟨"UintType(16)", 16, false, 20⟩)).int = 20 ∧
      (Expr.ternary (.identE ⟨"BitType", 1, false, 1⟩)
          (.identE ⟨"UintType(16)", 16, false, 10⟩)
          (.identE ⟨"UintType(16)", 16, false, 20⟩)).int = 10 ∧
      (Expr.ternary (.identE ⟨"BitType", 1, false, 0⟩)
          (.identE ⟨"UintType(16)", 16, false, 10⟩)
          (.identE ⟨"UintType(16)", 16, false, 20⟩)).ty =
        ⟨"UintType(16)", 16, false, 10⟩ ∧
      (Expr.minF (.identE ⟨"UintType(8)", 8, false, 5⟩)
          (.identE ⟨"UintType(8)", 8, false, 8⟩)).int = 5 ∧
      (Expr.maxF (.identE ⟨"UintType(8)", 8, false, 5⟩)
          (.identE ⟨"UintType(8)", 8, false, 8⟩)).int = 8 ∧
      (Expr.log2F (.identE ⟨"UintType(8)", 8, false, 5⟩)).int = 2 := by
  decide

/-! ### Lifecycle structure lemmas -/

mutual

theorem len_elabPlain (m : ModSpec) (p : List String) (e : Ev)
    (h : e ∈ elabPlain p m) : p.length < e.path.length := by
  match m with
  | .mk n k bs ds =>
      replace h : e ∈ Ev.build (p ++ [n]) ::
          (elabInline (p ++ [n]) bs ++
            [Ev.post (p ++ [n]), Ev.lock (p ++ [n]), Ev.ret (p ++ [n])]) := h
      rcases List.mem_cons.mp h with h | h
      · subst h; simp [Ev.path]
      · rcases List.mem_append.mp h with h | h
        · have := len_elabInline bs (p ++ [n]) e h
          simp at this
          omega
        · simp at h
          rcases h with h | h | h <;> subst h <;> simp [Ev.path]

theorem len_elabInline (l : SpecList) (p : List String) (e : Ev)
    (h : e ∈ elabInline p l) : p.length < e.path.length := by
  match l with
  | .nil => simp [elabInline] at h
  | .cons (.mk n .plain bs ds) rest =>
      replace h : e ∈ elabPlain p (.mk n .plain bs ds) ++ elabInline p rest := h
      rcases List.mem_append.mp h with h | h
      · exact len_elabPlain _ p e h
      · exact len_elabInline rest p e h
  | .cons (.mk n .tailored bs ds) rest =>
      replace h : e ∈ (bphase p (.mk n .tailored bs ds) ++
          (dphase p (.mk n .tailored bs ds) ++
            (pphase p (.mk n .tailored bs ds) ++ [Ev.ret (p ++ [n])]))) ++
          elabInline p rest := h
      rcases List.mem_append.mp h with h | h
      · rcases List.mem_append.mp h with h | h
        · exact len_bphase _ p e h
        · rcases List.mem_append.mp h with h | h
          · exact len_dphase _ p e h
          · rcases List.mem_append.mp h with h | h
            · exact len_pphase _ p e h
            · simp at h; subst h; simp [Ev.path]
      · exact len_elabInline rest p e h

theorem len_bphase (m : ModSpec) (p : List String) (e : Ev)
    (h : e ∈ bphase p m) : p.length < e.path.length := by
  match m with
  | .mk n k bs ds =>
      replace h : e ∈ Ev.build (p ++ [n]) :: bchildren (p ++ [n]) bs := h
      rcases List.mem_cons.mp h with h | h
      · subst h; simp [Ev.path]
      · have := len_bchildren bs (p ++ [n]) e h
        simp at this
        omega

theorem len_bchildren (l : SpecList) (p : List String) (e : Ev)
    (h : e ∈ bchildren p l) : p.length < e.path.length := by
  match l with
  | .nil => simp [bchildren] at h
  | .cons (.mk n .plain bs ds) rest =>
      replace h : e ∈ elabPlain p (.mk n .plain bs ds) ++ bchildren p rest := h
      rcases List.mem_append.mp h with h | h
      · exact len_elabPlain _ p e h
      · exact len_bchildren rest p e h
  | .cons (.mk n .tailored bs ds) rest =>
      replace h : e ∈ (bphase p (.mk n .tailored bs ds) ++ [Ev.ret (p ++ [n])]) ++
          bchildren p rest := h
      rcases List.mem_append.mp h with h | h
      · rcases List.mem_append.mp h with h | h
        · exact len_bphase _ p e h
        · simp at h; subst h; simp [Ev.path]
      · exact len_bchildren rest p e h

theorem len_dphase (m : ModSpec) (p : List String) (e : Ev)
    (h : e ∈ dphase p m) : p.length < e.path.length := by
  match m with
  | .mk n k bs ds =>
      replace h : e ∈ Ev.dep (p ++ [n]) ::
          (bchildren (p ++ [n]) ds ++
            (dchildren (p ++ [n]) bs ++ dchildren (p ++ [n]) ds)) := h
      rcases List.mem_cons.mp h with h | h
      · subst h; simp [Ev.path]
      · rcases List.mem_append.mp h with h | h
        · have := len_bchildren ds (p ++ [n]) e h
          simp at this
          omega
        · rcases List.mem_append.mp h with h | h
          · have := len_dchildren bs (p ++ [n]) e h
            simp at this
            omega
          · have := len_dchildren ds (p ++ [n]) e h
            simp at this
            omega

theorem len_dchildren (l : SpecList) (p : List String) (e : Ev)
    (h : e ∈ dchildren p l) : p.length < e.path.length := by
  match l with
  | .nil => simp [dchildren] at h
  | .cons (.mk n .plain bs ds) rest =>
      replace h : e ∈ ([] : List Ev) ++ dchildren p rest := h
      rcases List.mem_append.mp h with h | h
      · simp at h
      · exact len_dchildren rest p e h
  | .cons (.mk n .tailored bs ds) rest =>
      replace h : e ∈ dphase p (.mk n .tailored bs ds) ++ dchildren p rest := h
      rcases List.mem_append.mp h with h | h
      · exact len_dphase _ p e h
      · exact len_dchildren rest p e h

theorem len_pphase (m : ModSpec) (p : List String) (e : Ev)
    (h : e ∈ pphase p m) : p.length < e.path.length := by
  match m with
  | .mk n k bs ds =>
      replace h : e ∈ pchildren (p ++ [n]) bs ++
          (pchildren (p ++ [n]) ds ++ [Ev.post (p ++ [n]), Ev.lock (p ++ [n])]) := h
      rcases List.mem_append.mp h with h | h
      · have := len_pchildren bs (p ++ [n]) e h
        simp at this
        omega
      · rcases List.mem_append.mp h with h | h
        · have := len_pchildren ds (p ++ [n]) e h
          simp at this
          omega
        · simp at h
          rcases h with h | h <;> subst h <;> simp [Ev.path]

theorem len_pchildren (l : SpecList) (p : List String) (e : Ev)
    (h : e ∈ pchildren p l) : p.length < e.path.length := by
  match l with
  | .nil => simp [pchildren] at h
  | .cons (.mk n .plain bs ds) rest =>
      replace h : e ∈ ([] : List Ev) ++ pchildren p rest := h
      rcases List.mem_append.mp h with h | h
      · simp at h
      · exact len_pchildren rest p e h
  | .cons (.mk n .tailored bs ds) rest =>
      replace h : e ∈ pphase p (.mk n .tailored bs ds) ++ pchildren p rest := h
      rcases List.mem_append.mp h with h | h
      · exact len_pphase _ p e h
      · exact len_pchildren rest p e h

end

theorem lock_not_in_own_bphase (n : String) (k : MKind) (bs ds : SpecList)
    (p : List String) : Ev.lock (p ++ [n]) ∉ bphase p (.mk n k bs ds) := by
  intro h
  replace h : Ev.lock (p ++ [n]) ∈
      Ev.build (p ++ [n]) :: bchildren (p ++ [n]) bs := h
  rcases List.mem_cons.mp h with h | h
  · exact absurd h (by simp)
  · have := len_bchildren bs (p ++ [n]) _ h
    simp [Ev.path] at this

mutual

theorem lockall_plain (n : String) (bs ds : SpecList) (p q : List String)
    (h : q ∈ modPaths p (.mk n .plain bs ds)) :
    Ev.lock q ∈ elabPlain p (.mk n .plain bs ds) := by
  replace h : q ∈ (p ++ [n]) :: (modPathsL (p ++ [n]) bs ++ []) := h
  show Ev.lock q ∈ Ev.build (p ++ [n]) ::
    (elabInline (p ++ [n]) bs ++
      [Ev.post (p ++ [n]), Ev.lock (p ++ [n]), Ev.ret (p ++ [n])])
  rcases List.mem_cons.mp h with h | h
  · subst h
    refine List.mem_cons_of_mem _ (List.mem_append.mpr (Or.inr ?_))
    simp
  · simp only [List.append_nil] at h
    exact List.mem_cons_of_mem _
      (List.mem_append.mpr (Or.inl (lockall_inline bs (p ++ [n]) q h)))
termination_by (sizeOf bs + sizeOf ds, 1)
decreasing_by
  simp_wf
  apply Prod.Lex.left
  cases ds <;> simp_arith

theorem lockall_inline (l : SpecList) (p q : List String)
    (h : q ∈ modPathsL p l) : Ev.lock q ∈ elabInline p l := by
  match l with
  | .nil => simp [modPathsL] at h
  | .cons (.mk n .plain bs ds) rest =>
      replace h : q ∈ modPaths p (.mk n .plain bs ds) ++ modPathsL p rest := h
      show Ev.lock q ∈ elabPlain p (.mk n .plain bs ds) ++ elabInline p rest
      rcases List.mem_append.mp h with h | h
      · exact List.mem_append.mpr (Or.inl (lockall_plain n bs ds p q h))
      · exact List.mem_append.mpr (Or.inr (lockall_inline rest p q h))
  | .cons (.mk n .tailored bs ds) rest =>
      replace h : q ∈ modPaths p (.mk n .tailored bs ds) ++ modPathsL p rest := h
      show Ev.lock q ∈ (bphase p (.mk n .tailored bs ds) ++
          (dphase p (.mk n .tailored bs ds) ++
            (pphase p (.mk n .tailored bs ds) ++ [Ev.ret (p ++ [n])]))) ++
          elabInline p rest
      rcases List.mem_append.mp h with h | h
      · refine List.mem_append.mpr (Or.inl ?_)
        have hm := lockall_tail n bs ds p q h
        rcases List.mem_append.mp hm with hm | hm
        · exact List.mem_append.mpr (Or.inl hm)
        · rcases List.mem_append.mp hm with hm | hm
          · exact List.mem_append.mpr (Or.inr (List.mem_append.mpr (Or.inl hm)))
          · exact List.mem_append.mpr (Or.inr (List.mem_append.mpr
              (Or.inr (List.mem_append.mpr (Or.inl hm)))))
      · exact List.mem_append.mpr (Or.inr (lockall_inline rest p q h))
termination_by (sizeOf l, 0)
decreasing_by
  all_goals simp_wf
  all_goals apply Prod.Lex.left
  all_goals try simp_arith
  all_goals first
    | ((cases bs <;> simp_arith); done)
    | ((cases ds <;> simp_arith); done)

theorem lockall_tail (n : String) (bs ds : SpecList) (p q : List String)
    (h : q ∈ modPaths p (.mk n .tailored bs ds)) :
    Ev.lock q ∈
      bphase p (.mk n .tailored bs ds) ++
        (dphase p (.mk n .tailored bs ds) ++
          pphase p (.mk n .tailored bs ds)) := by
  replace h : q ∈ (p ++ [n]) ::
      (modPathsL (p ++ [n]) bs ++ modPathsL (p ++ [n]) ds) := h
  rcases List.mem_cons.mp h with h | h
  · subst h
    refine List.mem_append.mpr (Or.inr (List.mem_append.mpr (Or.inr ?_)))
    show Ev.lock (p ++ [n]) ∈ pchildren (p ++ [n]) bs ++
      (pchildren (p ++ [n]) ds ++ [Ev.post (p ++ [n]), Ev.lock (p ++ [n])])
    refine List.mem_append.mpr (Or.inr (List.mem_append.mpr (Or.inr ?_)))
    simp
  · rcases List.mem_append.mp h with h | h
    · have hm := lockall_children bs (p ++ [n]) q h
      rcases List.mem_append.mp hm with hm | hm
      · refine List.mem_append.mpr (Or.inl ?_)
        show Ev.lock q ∈ Ev.build (p ++ [n]) :: bchildren (p ++ [n]) bs
        exact List.mem_cons_of_mem _ hm
      · rcases List.mem_append.mp hm with hm | hm
        · refine List.mem_append.mpr (Or.inr (List.mem_append.mpr (Or.inl ?_)))
          show Ev.lock q ∈ Ev.dep (p ++ [n]) ::
            (bchildren (p ++ [n]) ds ++
              (dchildren (p ++ [n]) bs ++ dchildren (p ++ [n]) ds))
          exact List.mem_cons_of_mem _
            (List.mem_append.mpr (Or.inr (List.mem_append.mpr (Or.inl hm))))
        · refine List.mem_append.mpr (Or.inr (List.mem_append.mpr (Or.inr ?_)))
          show Ev.lock q ∈ pchildren (p ++ [n]) bs ++
            (pchildren (p ++ [n]) ds ++ [Ev.post (p ++ [n]), Ev.lock (p ++ [n])])
          exact List.mem_append.mpr (Or.inl hm)
    · have hm := lockall_children ds (p ++ [n]) q h
      rcases List.mem_append.mp hm with hm | hm
      · refine List.mem_append.mpr (Or.inr (List.mem_append.mpr (Or.inl ?_)))
        show Ev.lock q ∈ Ev.dep (p ++ [n]) ::
          (bchildren (p ++ [n]) ds ++
            (dchildren (p ++ [n]) bs ++ dchildren (p ++ [n]) ds))
        exact List.mem_cons_of_mem _ (List.mem_append.mpr (Or.inl hm))
      · rcases List.mem_append.mp hm with hm | hm
        · refine List.mem_append.mpr (Or.inr (List.mem_append.mpr (Or.inl ?_)))
          show Ev.lock q ∈ Ev.dep (p ++ [n]) ::
            (bchildren (p ++ [n]) ds ++
              (dchildren (p ++ [n]) bs ++ dchildren (p ++ [n]) ds))
          exact List.mem_cons_of_mem _
            (List.mem_append.mpr (Or.inr (List.mem_append.mpr (Or.inr hm))))
        · refine List.mem_append.mpr (Or.inr (List.mem_append.mpr (Or.inr ?_)))
          show Ev.lock q ∈ pchildren (p ++ [n]) bs ++
            (pchildren (p ++ [n]) ds ++ [Ev.post (p ++ [n]), Ev.lock (p ++ [n])])
          exact List.mem_append.mpr (Or.inr (List.mem_append.mpr (Or.inl hm)))
termination_by (sizeOf bs + sizeOf ds, 1)
decreasing_by
  all_goals simp_wf
  all_goals apply Prod.Lex.left
  all_goals first
    | ((cases ds <;> simp_arith); done)
    | ((cases bs <;> simp_arith); done)

theorem lockall_children (l : SpecList) (p q : List String)
    (h : q ∈ modPathsL p l) :
    Ev.lock q ∈
      bchildren p l ++ (dchildren p l ++ pchildren p l) := by
  match l with
  | .nil => simp [modPathsL] at h
  | .cons (.mk n .plain bs ds) rest =>
      replace h : q ∈ modPaths p (.mk n .plain bs ds) ++ modPathsL p rest := h
      show Ev.lock q ∈ (elabPlain p (.mk n .plain bs ds) ++ bchildren p rest) ++
        (([] ++ dchildren p rest) ++ ([] ++ pchildren p rest))
      rcases List.mem_append.mp h with h | h
      · exact List.mem_append.mpr (Or.inl
          (List.mem_append.mpr (Or.inl (lockall_plain n bs ds p q h))))
      · have hm := lockall_children rest p q h
        rcases List.mem_append.mp hm with hm | hm
        · exact List.mem_append.mpr (Or.inl (List.mem_append.mpr (Or.inr hm)))
        · rcases List.mem_append.mp hm with hm | hm
          · refine List.mem_append.mpr (Or.inr (List.mem_append.mpr (Or.inl ?_)))
            simpa using hm
          · refine List.mem_append.mpr (Or.inr (List.mem_append.mpr (Or.inr ?_)))
            simpa using hm
  | .cons (.mk n .tailored bs ds) rest =>
      replace h : q ∈ modPaths p (.mk n .tailored bs ds) ++ modPathsL p rest := h
      show Ev.lock q ∈
        ((bphase p (.mk n .tailored bs ds) ++ [Ev.ret (p ++ [n])]) ++ bchildren p rest) ++
          ((dphase p (.mk n .tailored bs ds) ++ dchildren p rest) ++
            (pphase p (.mk n .tailored bs ds) ++ pchildren p rest))
      rcases List.mem_append.mp h with h | h
      · have hm := lockall_tail n bs ds p q h
        rcases List.mem_append.mp hm with hm | hm
        · exact List.mem_append.mpr (Or.inl (List.mem_append.mpr (Or.inl
            (List.mem_append.mpr (Or.inl hm)))))
        · rcases List.mem_append.mp hm with hm | hm
          · exact List.mem_append.mpr (Or.inr (List.mem_append.mpr (Or.inl
              (List.mem_append.mpr (Or.inl hm)))))
          · exact List.mem_append.mpr (Or.inr (List.mem_append.mpr (Or.inr
              (List.mem_append.mpr (Or.inl hm)))))
      · have hm := lockall_children rest p q h
        rcases List.mem_append.mp hm with hm | hm
        · exact List.mem_append.mpr (Or.inl (List.mem_append.mpr (Or.inr hm)))
        · rcases List.mem_append.mp hm with hm | hm
          · exact List.mem_append.mpr (Or.inr (List.mem_append.mpr (Or.inl
              (List.mem_append.mpr (Or.inr hm)))))
          · exact List.mem_append.mpr (Or.inr (List.mem_append.mpr (Or.inr
              (List.mem_append.mpr (Or.inr hm)))))
termination_by (sizeOf l, 0)
decreasing_by
  all_goals simp_wf
  all_goals apply Prod.Lex.left
  all_goals try simp_arith
  all_goals first
    | ((cases bs <;> simp_arith); done)
    | ((cases ds <;> simp_arith); done)

end

/-- C3 counterexample: the claim fails as stated on the hierarchy pinned
by test_hier1 — the model reproduces the exact pinned hook trace, and in
it the module u_tail1, whose build hook instantiates child u_tail0 (A)
and whose dependency hook instantiates child u_leaf0_dep (B), runs A's
post hook (index 65) only after B's build hook (index 29): a
dependency-flagged child's post hook is deferred, so the claimed order
A-build, A-post, B-build, B-post does not hold for every child. -/
theorem c3_counterexample :
    hookEvs (buildTop top1Spec) = hier1Trace ∧
      (buildTop top1Spec).indexOf
          (Ev.post ["my_top1", "u_tail1", "u_tail0"]) = 65 ∧
      (buildTop top1Spec).indexOf
          (Ev.build ["my_top1", "u_tail1", "u_leaf0_dep"]) = 29 ∧
      Ev.post ["my_top1", "u_tail1", "u_tail0"] ∈ buildTop top1Spec ∧
      Ev.build ["my_top1", "u_tail1", "u_leaf0_dep"] ∈ buildTop top1Spec ∧
      ¬ (buildTop top1Spec).indexOf
            (Ev.post ["my_top1", "u_tail1", "u_tail0"]) <
          (buildTop top1Spec).indexOf
            (Ev.build ["my_top1", "u_tail1", "u_leaf0_dep"]) := by
  exact ⟨by rfl, by rfl, by rfl, by decide, by decide, by decide⟩

/-- C3 (amended): for a module whose build hook instantiates a child A
and whose dependency hook instantiates a child B, where A and B have no
dependency phase of their own, the observed hook order is exactly A's
build then A's post, then B's build then B's post, and only afterwards
the parent's own post hook (BUILD before DEPENDENCY before POST); a
dependency-flagged child's build hook still runs in this order but its
post hook is deferred until after the cluster's dependency pass (still
before the parent's post hook), as pinned by test_hier1. -/
theorem c3_amended_hook_order (pn a b : String) :
    hookEvs (clusterEvs [] (ModSpec.mk pn .tailored
        (.cons (leafSpec a) .nil) (.cons (leafSpec b) .nil))) =
      [.build [pn], .build [pn, a], .post [pn, a], .dep [pn],
        .build [pn, b], .post [pn, b], .post [pn]] := rfl

/-- C4 counterexample: the claim fails as stated on the hierarchy pinned
by test_hier1 — the constructor of the dependency-flagged child u_tail0,
instantiated by the build hook of the tailored module u_tail1, returns
at trace index 27 while the child's lock only happens at index 66: the
child is observable in a partially built, unlocked state after its
constructor returns. -/
theorem c4_counterexample :
    (buildTop top1Spec).indexOf
        (Ev.ret ["my_top1", "u_tail1", "u_tail0"]) = 27 ∧
      (buildTop top1Spec).indexOf
          (Ev.lock ["my_top1", "u_tail1", "u_tail0"]) = 66 ∧
      Ev.ret ["my_top1", "u_tail1", "u_tail0"] ∈ buildTop top1Spec ∧
      Ev.lock ["my_top1", "u_tail1", "u_tail0"] ∈ buildTop top1Spec ∧
      ¬ (buildTop top1Spec).indexOf
            (Ev.lock ["my_top1", "u_tail1", "u_tail0"]) <
          (buildTop top1Spec).indexOf
            (Ev.ret ["my_top1", "u_tail1", "u_tail0"]) := by
  exact ⟨by rfl, by rfl, by decide, by decide, by decide⟩

/-- C4 (amended): a module without a dependency phase completes build,
post and lock inside its constructor, so it is locked when control
returns; every module created during a top-level construction is locked
by the end of that construction; but a dependency-flagged child created
inside another dependency-flagged module's hook returns from its
constructor right after its build phase — the return event is in the
deferred build elaboration while its lock is not. -/
theorem c4_amended_lock_discipline :
    (∀ (n : String) (k : MKind) (bs ds : SpecList) (p : List String),
      elabPlain p (.mk n k bs ds) =
        .build (p ++ [n]) ::
          (elabInline (p ++ [n]) bs ++
            [.post (p ++ [n]), .lock (p ++ [n]), .ret (p ++ [n])])) ∧
      (∀ (m : ModSpec) (q : List String),
        q ∈ modPaths [] m → Ev.lock q ∈ buildTop m) ∧
      (∀ (n : String) (bs ds : SpecList) (p : List String),
        Ev.ret (p ++ [n]) ∈
            bphase p (.mk n .tailored bs ds) ++ [Ev.ret (p ++ [n])] ∧
          Ev.lock (p ++ [n]) ∉
            bphase p (.mk n .tailored bs ds) ++ [Ev.ret (p ++ [n])]) := by
  refine ⟨fun n k bs ds p => rfl, ?_, ?_⟩
  · intro m q h
    match m with
    | .mk n .plain bs ds => exact lockall_plain n bs ds [] q h
    | .mk n .tailored bs ds =>
        have hm := lockall_tail n bs ds [] q h
        show Ev.lock q ∈ bphase [] (.mk n .tailored bs ds) ++
          (dphase [] (.mk n .tailored bs ds) ++
            (pphase [] (.mk n .tailored bs ds) ++ [Ev.ret ([] ++ [n])]))
        rcases List.mem_append.mp hm with hm | hm
        · exact List.mem_append.mpr (Or.inl hm)
        · rcases List.mem_append.mp hm with hm | hm
          · exact List.mem_append.mpr (Or.inr (List.mem_append.mpr (Or.inl hm)))
          · exact List.mem_append.mpr (Or.inr (List.mem_append.mpr
              (Or.inr (List.mem_append.mpr (Or.inl hm)))))
  · intro n bs ds p
    refine ⟨List.mem_append.mpr (Or.inr (by simp)), ?_⟩
    intro hmem
    rcases List.mem_append.mp hmem with hmem | hmem
    · exact lock_not_in_own_bphase n .tailored bs ds p hmem
    · simp at hmem

/-- Witness for C4 (amended) at the one-leaf hierarchy: the lock of the
sole module appears in its own top-level construction. -/
theorem c4_amended_lock_discipline_witness :
    Ev.lock ["my"] ∈ buildTop (leafSpec "my") :=
  c4_amended_lock_discipline.2.1 (leafSpec "my") ["my"] (by simp [modPaths, leafSpec])

end Ucdp
